import Mathlib

/-!
# Verification of the SS44 matrix-switcher protocol driver

A shallow embedding of `SS44.py`, the controller for the Broadcast Tools
SS 4.4 stereo matrix switcher. The serial port is modelled as an explicit
state: a list of incoming lines (what `ser.read_until()` would deliver,
already decoded; a read past the end models a timeout, which pyserial
reports as empty bytes) and a list of written command strings. Python
exceptions (KeyError / IndexError on dictionary and list indexing) are
modelled by the `Option` monad. Rows of the parsed state dictionary are
`List (Option Bool)`: the Python row `[None] + [bools]` puts the sentinel
`None` at index 0, modelled as `none`, with real flags `some b`.
-/

namespace SS44

/-- The serial-port state: `inbox` holds the lines still to be read
(in arrival order), `outbox` the commands written so far (oldest first). -/
structure Serial where
  inbox : List String
  outbox : List String
  deriving Repr, DecidableEq

/-- Model of `ser.read_until()` plus decode and later strip: deliver the next
line, or the empty string on timeout (pyserial returns what arrived, here
nothing). -/
def readLineU (s : Serial) : String × Serial :=
  match s.inbox with
  | [] => ("", s)
  | l :: rest => (l, { s with inbox := rest })

/-- Model of `_writeSerial`: append the command string to the transport. -/
def writeSerial (s : Serial) (c : String) : Serial :=
  { s with outbox := s.outbox ++ [c] }

/-- Python `f"\x7bn:02d\x7d"` for a natural number: zero-pad to width 2. -/
def fmt02 (n : Nat) : String :=
  if n < 10 then "0" ++ toString n else toString n

/-- The wire string of `muteAll`: `f"*\x7bu\x7dMA"`. -/
def muteAllCmd (u : Nat) : String :=
  "*" ++ toString u ++ "MA"

/-- The wire string of `mute`: `f"*\x7bu\x7d\x7bii:02d\x7dM\x7bo\x7d"`. -/
def muteCmd (u ii o : Nat) : String :=
  "*" ++ toString u ++ fmt02 ii ++ "M" ++ toString o

/-- The wire string of `connect`: `f"*\x7bu\x7d\x7bii:02d\x7d\x7bo\x7d"`. -/
def connectCmd (u ii o : Nat) : String :=
  "*" ++ toString u ++ fmt02 ii ++ toString o

/-- The wire string of the status request in `printState`: `f"*\x7bu\x7dSL"`. -/
def statusCmd (u : Nat) : String :=
  "*" ++ toString u ++ "SL"

/-- Model of `SS44.muteAll`: format and write the mute-all command. -/
def muteAll (u : Nat) (s : Serial) : Serial :=
  writeSerial s (muteAllCmd u)

/-- Model of `SS44.mute`: format and write the single-crosspoint mute command.
No validation of `ii` or `o` happens before the write. -/
def mute (u : Nat) (s : Serial) (ii o : Nat) : Serial :=
  writeSerial s (muteCmd u ii o)

/-- Model of `SS44.connect`: format and write the connect command.
No validation of `ii` or `o` happens before the write. -/
def connect (u : Nat) (s : Serial) (ii o : Nat) : Serial :=
  writeSerial s (connectCmd u ii o)

/-- The whitespace characters removed by Python `str.strip()`. -/
def isSpaceChar (c : Char) : Bool :=
  c = ' ' || c = '\t' || c = '\n' || c = '\r' || c = '\x0b' || c = '\x0c'

/-- Python `str.strip()` on a character list: drop whitespace at both ends. -/
def stripChars (l : List Char) : List Char :=
  ((l.dropWhile isSpaceChar).reverse.dropWhile isSpaceChar).reverse

/-- Python `str.split(',')`: cut at every comma, keeping empty fields. -/
def splitCommas : List Char → List (List Char)
  | [] => [[]]
  | c :: rest =>
    match splitCommas rest with
    | [] => [[]]
    | f :: fs => if c = ',' then [] :: f :: fs else (c :: f) :: fs

/-- The comma-separated fields of a stripped line, as character lists. -/
def fields (line : String) : List (List Char) :=
  splitCommas (stripChars line.data)

/-- One row of the parsed state: `[None] + [i == '1' for i in line.split(',')[1:5]]`.
The sentinel `None` sits at index 0; each retained field decodes to
`True` exactly when it is the string `"1"`. -/
def parseLine (line : String) : List (Option Bool) :=
  none :: (((fields line).drop 1).take 4).map (fun f => some (f == ['1']))

/-- The dictionary returned by `readState`: keys 1..4, one row per output. -/
structure StateDict where
  r1 : List (Option Bool)
  r2 : List (Option Bool)
  r3 : List (Option Bool)
  r4 : List (Option Bool)
  deriving Repr, DecidableEq

/-- Python dictionary lookup `results[o]`; `none` models a `KeyError`. -/
def StateDict.get? (d : StateDict) (o : Nat) : Option (List (Option Bool)) :=
  match o with
  | 1 => some d.r1
  | 2 => some d.r2
  | 3 => some d.r3
  | 4 => some d.r4
  | _ => none

/-- Model of `SS44.readState`: read four lines, strip them, split each on commas,
keep fields 1..4 and decode them, building rows keyed 1..4 positionally. -/
def readState (s : Serial) : StateDict × Serial :=
  let p1 := readLineU s
  let p2 := readLineU p1.2
  let p3 := readLineU p2.2
  let p4 := readLineU p3.2
  (⟨parseLine p1.1, parseLine p2.1, parseLine p3.1, parseLine p4.1⟩, p4.2)

/-- Python truthiness of a row element: `None` and `False` are falsy. -/
def truthy : Option Bool → Bool
  | none => false
  | some b => b

/-- The iteration order of the nested `for i in [1, 2, 3, 4]` /
`for j in [1, 2, 3, 4]` loops in `printState`, row-major. -/
def pairsIJ : List (Nat × Nat) :=
  [(1, 1), (1, 2), (1, 3), (1, 4), (2, 1), (2, 2), (2, 3), (2, 4),
   (3, 1), (3, 2), (3, 3), (3, 4), (4, 1), (4, 2), (4, 3), (4, 4)]

/-- The loop body of `printState`: for each pair (i, j) in turn, look up
`state[i][j]` and append a one or a zero by truthiness; `none` models the
`IndexError` raised when a row is too short for `state[i][j]`. -/
def renderFlags (st : StateDict) : List (Nat × Nat) → String → Option String
  | [], acc => some acc
  | (i, j) :: rest, acc =>
    match st.get? i with
    | none => none
    | some row =>
      match row[j]? with
      | none => none
      | some v => renderFlags st rest (acc ++ (if truthy v then "1" else "0"))

/-- Model of `SS44.printState`: write the status request, read the state, and
render the sixteen crosspoint flags as `'1'`/`'0'` characters in row-major
order; `none` models an uncaught `IndexError` from the loop. -/
def printState (u : Nat) (s : Serial) : Option (String × Serial) :=
  let rs := readState (writeSerial s (statusCmd u))
  match renderFlags rs.1 pairsIJ "" with
  | none => none
  | some out => some (out, rs.2)

/-- The literal (non-interpolated) message printed on a failed connect check. -/
def connectErrMsg : String :=
  "Error, didn\x27t connect input \x7bi\x7d to output \x7bo\x7d"

/-- The literal (non-interpolated) message printed on a failed mute check. -/
def muteErrMsg : String :=
  "Error, didn\x27t mute input \x7bi\x7d on output \x7bo\x7d"

/-- The observable result of a `switchOutput` run: the error lines printed
and the final serial-port state. -/
structure Run where
  prints : List String
  serial : Serial
  deriving Repr, DecidableEq

/-- The `for i in range(len(results[o]))` loop in `switchOutput`: walk the
row; wherever `i != ii and results[o][i] == True`, write `Mute(i, o)`, read
the next status block and print an error unless `newstatus[o][i]` is
`False` now. `lst` is the still-unvisited suffix of the row, `i` the index
of its head. -/
def muteLoop (u ii o : Nat) : List (Option Bool) → Nat → Run → Option Run
  | [], _, r => some r
  | v :: rest, i, r =>
    if i ≠ ii ∧ v = some true then
      let rs := readState (mute u r.serial i o)
      match (rs.1).get? o with
      | none => none
      | some nrow =>
        match nrow[i]? with
        | none => none
        | some nv =>
          let prints :=
            if nv ≠ some false then r.prints ++ [muteErrMsg] else r.prints
          muteLoop u ii o rest (i + 1) ⟨prints, rs.2⟩
    else
      muteLoop u ii o rest (i + 1) r

/-- Model of `SS44.switchOutput`: connect `ii` to `o`, read the status emission,
print an error if the connect is not reflected, then mute every other input
reported `True` on output `o`, reading and checking a status block after
each mute. `none` models an uncaught KeyError/IndexError. -/
def switchOutput (u : Nat) (s : Serial) (ii o : Nat) : Option Run :=
  let rs := readState (connect u s ii o)
  match (rs.1).get? o with
  | none => none
  | some row =>
    match row[ii]? with
    | none => none
    | some v =>
      let prints := if v ≠ some true then [connectErrMsg] else []
      muteLoop u ii o row 0 ⟨prints, rs.2⟩

/-- Device replies of the happy-path switch scenario for `switchOutput 0 s 2 1`:
after `Connect(2,1)` the status shows inputs 1 (stale) and 2 true on output 1;
after `Mute(1,1)` it shows input 1 false and input 2 true on output 1. -/
def happyLines : List String :=
  ["S0L1,1,1,0,0", "S0L2,0,0,0,0", "S0L3,0,0,0,0", "S0L4,0,0,0,0",
   "S0L1,0,1,0,0", "S0L2,0,0,0,0", "S0L3,0,0,0,0", "S0L4,0,0,0,0"]

/-- Device replies of a failing-connect scenario for `switchOutput 0 s 2 1`:
after `Connect(2,1)` the status still shows only input 1 true on output 1
(the connect did not take); after `Mute(1,1)` everything on output 1 is off. -/
def failLines : List String :=
  ["S0L1,1,0,0,0", "S0L2,0,0,0,0", "S0L3,0,0,0,0", "S0L4,0,0,0,0",
   "S0L1,0,0,0,0", "S0L2,0,0,0,0", "S0L3,0,0,0,0", "S0L4,0,0,0,0"]

/-- Reading a line never touches the written-command log. -/
theorem readLineU_outbox (s : Serial) : (readLineU s).2.outbox = s.outbox := by
  rcases s with ⟨inbox, w⟩
  cases inbox <;> rfl

/-- Reading a status block never touches the written-command log. -/
theorem readState_outbox (s : Serial) : (readState s).2.outbox = s.outbox := by
  simp [readState, readLineU_outbox]

/-- Every row obtained from a parsed state dictionary is the parse of some line. -/
theorem readState_row_parse (s : Serial) (o : Nat) (row : List (Option Bool))
    (h : ((readState s).1).get? o = some row) : ∃ l, row = parseLine l := by
  unfold readState StateDict.get? at h
  split at h <;> simp_all <;> exact ⟨_, h.symm⟩

/-- A parsed row always carries the sentinel `none` at index 0. -/
theorem parseLine_sentinel (l : String) : (parseLine l)[0]? = some none := by
  unfold parseLine
  rw [List.getElem?_cons_zero]

/-- Every entry of a parsed row beyond the sentinel is a genuine boolean. -/
theorem parseLine_pos (l : String) (k : Nat) (v : Option Bool)
    (h : (parseLine l)[k + 1]? = some v) : ∃ b, v = some b := by
  unfold parseLine at h
  rw [List.getElem?_cons_succ, List.getElem?_map] at h
  cases hx : (((fields l).drop 1).take 4)[k]? with
  | none => rw [hx] at h; simp at h
  | some f =>
    rw [hx] at h
    exact ⟨f == ['1'], by simpa using h.symm⟩

/-- The last character of `s ++ t` is the single character of `t`. -/
theorem data_append_getLast (s t : String) (a : Char) (h : t.data = [a]) :
    (s ++ t).data.getLast? = some a := by
  have he : (s ++ t).data = s.data ++ t.data := rfl
  rw [he, h, List.getLast?_concat]

/-- C2 — counterexample. The claim says a status line with fewer than 5
comma-separated fields yields a row in which every missing flag position is
present and set to false. In fact `readState` on the short first line
`"S0L1,1"` produces row 1 = `[none, some true]`: it has length 2, and the
positions for inputs 2, 3, 4 are simply absent (`r1[2]? = none`), not false. -/
theorem C2_counterexample :
    ((readState ⟨["S0L1,1", "S0L2,0,0,0,0", "S0L3,0,0,0,0", "S0L4,0,0,0,0"],
        []⟩).1).r1 = [none, some true] ∧
    ((readState ⟨["S0L1,1", "S0L2,0,0,0,0", "S0L3,0,0,0,0", "S0L4,0,0,0,0"],
        []⟩).1).r1.length = 2 ∧
    (((readState ⟨["S0L1,1", "S0L2,0,0,0,0", "S0L3,0,0,0,0", "S0L4,0,0,0,0"],
        []⟩).1).r1)[2]? = none := by
  refine ⟨by decide, by decide, by decide⟩

/-- C2 (amended): a status line with `n < 5` comma-separated fields parses to
a row of length exactly `n` — the sentinel plus the `n - 1` present flags —
so the missing flag positions are absent from the row (lookups there give
`none`), rather than being present and defaulted to false. -/
theorem C2_short_line_row_truncated (l : String) (n : Nat)
    (h : (fields l).length = n) (h1 : 1 ≤ n) (h5 : n < 5) :
    (parseLine l).length = n ∧ (parseLine l)[n]? = none := by
  have hlen : (parseLine l).length = n := by
    simp only [parseLine, List.length_cons, List.length_map, List.length_take,
      List.length_drop, h]
    omega
  refine ⟨hlen, ?_⟩
  rw [List.getElem?_eq_none]
  omega

/-- C2 — witness for the amended theorem at the concrete short line `"S0L1,1"`. -/
theorem C2_witness :
    (parseLine "S0L1,1").length = 2 ∧ (parseLine "S0L1,1")[2]? = none :=
  C2_short_line_row_truncated "S0L1,1" 2 (by decide) (by decide) (by decide)

/-- C3 — counterexample. The claim says that when fewer than 4 lines arrive
before the read timeout, `requestFullState` (realised by `printState`, the
only status-requesting operation) fails with a ProtocolMismatch error
distinct from a generic transport error and returns no partial matrix. In
fact with no lines available `readState` happily returns the degenerate
matrix whose four rows are each just the sentinel `[none]`, and `printState`
then dies on an IndexError (modelled `none`); no ProtocolMismatch error
exists anywhere in the code. -/
theorem C3_counterexample :
    (readState ⟨[], []⟩).1 = ⟨[none], [none], [none], [none]⟩ ∧
    printState 0 ⟨[], []⟩ = none := by
  refine ⟨by decide, by decide⟩

/-- When fewer than four lines are available, the fourth read times out and
row 4 of the parsed state is just the sentinel. -/
theorem readState_r4_short (inbox w : List String) (h : inbox.length < 4) :
    ((readState ⟨inbox, w⟩).1).r4 = [none] := by
  match inbox with
  | [] => rfl
  | [l1] => rfl
  | [l1, l2] => rfl
  | [l1, l2, l3] => rfl
  | l1 :: l2 :: l3 :: l4 :: rest =>
    simp [List.length_cons] at h
    omega

/-- If row 4 of the state holds only the sentinel, the rendering loop of
`printState` dies on the IndexError at position (4, 1), whatever happened
on the pairs before it. -/
theorem renderFlags_none (st : StateDict) (hst : st.r4 = [none]) :
    ∀ (l : List (Nat × Nat)) (acc : String), (4, 1) ∈ l →
      renderFlags st l acc = none := by
  intro l
  induction l with
  | nil =>
    intro acc hm
    simp at hm
  | cons p rest ih =>
    obtain ⟨i, j⟩ := p
    intro acc hm
    rcases List.mem_cons.mp hm with hp | hp
    · injection hp with hi hj
      subst hi
      subst hj
      have hg : st.get? 4 = some [none] := by
        rw [show st.get? 4 = some st.r4 from rfl, hst]
      simp [renderFlags, hg]
    · simp only [renderFlags]
      cases hg : st.get? i with
      | none => rfl
      | some row =>
        dsimp only
        cases hv : row[j]? with
        | none => rfl
        | some v => exact ih _ hp

/-- C3 (amended): whenever fewer than 4 status lines arrive before the read
timeout, `readState` still returns a (partial) matrix — every row beyond
the arrived lines holds only the sentinel — and `printState` then fails
with an uncaught IndexError (modelled as `none`), not with a distinct
ProtocolMismatch error, for any unit and any previously written commands. -/
theorem C3_timeout_returns_matrix (u : Nat) (w inbox : List String)
    (h : inbox.length < 4) :
    (∀ o : Nat, inbox.length < o → o ≤ 4 →
        ((readState ⟨inbox, w⟩).1).get? o = some [none]) ∧
    printState u ⟨inbox, w⟩ = none := by
  constructor
  · intro o hlt hle
    match inbox, hlt with
    | [], hlt =>
      simp at hlt
      interval_cases o <;> rfl
    | [l1], hlt =>
      simp at hlt
      interval_cases o <;> rfl
    | [l1, l2], hlt =>
      simp at hlt
      interval_cases o <;> rfl
    | [l1, l2, l3], hlt =>
      simp at hlt
      interval_cases o
      rfl
    | l1 :: l2 :: l3 :: l4 :: rest, hlt =>
      simp [List.length_cons] at h
      omega
  · have hr4 : ((readState (writeSerial ⟨inbox, w⟩ (statusCmd u))).1).r4 = [none] :=
      readState_r4_short inbox (w ++ [statusCmd u]) h
    have hrn : renderFlags ((readState (writeSerial ⟨inbox, w⟩ (statusCmd u))).1)
        pairsIJ "" = none :=
      renderFlags_none _ hr4 pairsIJ "" (by decide)
    unfold printState
    dsimp only
    rw [hrn]

/-- C3 — witness for the amended theorem with exactly one line arrived:
rows 2, 3 and 4 are sentinel-only and `printState` fails. -/
theorem C3_witness :
    (∀ o : Nat, (["S0L1,0,1,0,0"] : List String).length < o → o ≤ 4 →
        ((readState ⟨["S0L1,0,1,0,0"], []⟩).1).get? o = some [none]) ∧
    printState 0 ⟨["S0L1,0,1,0,0"], []⟩ = none :=
  C3_timeout_returns_matrix 0 [] ["S0L1,0,1,0,0"] (by decide)

/-- C4 — counterexample. The claim says mute and connect reject input or
output indices outside [1,4] with a validation error before encoding and
never write such a command. In fact `mute 0 s 5 7` (input 5, output 7, both
out of range) writes `"*005M7"` straight to the transport, and
`connect 0 s 0 9` (input 0, output 9) writes `"*0009"`. -/
theorem C4_counterexample :
    (mute 0 ⟨[], []⟩ 5 7).outbox = ["*005M7"] ∧
    muteCmd 0 5 7 = "*005M7" ∧
    (connect 0 ⟨[], []⟩ 0 9).outbox = ["*0009"] ∧
    connectCmd 0 0 9 = "*0009" := by
  refine ⟨by decide, by decide, by decide, by decide⟩

/-- C4 (amended): the code performs no range validation at all — for every
unit, serial state and indices, `mute` and `connect` unconditionally format
the command and append it to the transport write log, leaving the incoming
line stream untouched. -/
theorem C4_no_validation (u ii o : Nat) (s : Serial) :
    (mute u s ii o).outbox = s.outbox ++ [muteCmd u ii o] ∧
    (mute u s ii o).inbox = s.inbox ∧
    (connect u s ii o).outbox = s.outbox ++ [connectCmd u ii o] ∧
    (connect u s ii o).inbox = s.inbox :=
  ⟨rfl, rfl, rfl, rfl⟩

/-- C4 — witness for the amended theorem at out-of-range indices 5 and 7. -/
theorem C4_witness :
    (mute 3 ⟨[], []⟩ 5 7).outbox = [] ++ [muteCmd 3 5 7] ∧
    (mute 3 ⟨[], []⟩ 5 7).inbox = [] ∧
    (connect 3 ⟨[], []⟩ 5 7).outbox = [] ++ [connectCmd 3 5 7] ∧
    (connect 3 ⟨[], []⟩ 5 7).inbox = [] :=
  C4_no_validation 3 5 7 ⟨[], []⟩

/-- C5: in the happy-path scenario (device answers `Connect(2,1)` with a
four-line status showing inputs 1 and 2 true on output 1, then answers
`Mute(1,1)` with a status showing input 1 false and input 2 true on
output 1), `switchOutput 0 s 2 1` finishes with no error printed — primary
success for (2,1) and mute success for (1,1) — having written exactly the
two commands `Connect(2,1)` then `Mute(1,1)` and consumed exactly the two
four-line status blocks (the inbox of eight lines is drained). -/
theorem C5_happy_path :
    switchOutput 0 ⟨happyLines, []⟩ 2 1 =
      some ⟨[], ⟨[], [connectCmd 0 2 1, muteCmd 0 1 1]⟩⟩ ∧
    connectCmd 0 2 1 = "*0021" ∧ muteCmd 0 1 1 = "*001M1" := by
  refine ⟨by decide, by decide, by decide⟩

/-- C6: for every unit `u` and input and output in [1,4], the encoder renders
`Mute` as `"*" ++ u ++ input zero-padded to width 2 ++ "M" ++ output digit`
and `Connect` the same way without the `"M"`, and neither command ends in a
line terminator (`\n` or `\r`). -/
theorem C6_encoder_format (u i o : Nat)
    (hi1 : 1 ≤ i) (hi4 : i ≤ 4) (ho1 : 1 ≤ o) (ho4 : o ≤ 4) :
    muteCmd u i o = "*" ++ toString u ++ "0" ++ toString i ++ "M" ++ toString o ∧
    connectCmd u i o = "*" ++ toString u ++ "0" ++ toString i ++ toString o ∧
    (muteCmd u i o).data.getLast? ≠ some '\n' ∧
    (muteCmd u i o).data.getLast? ≠ some '\r' ∧
    (connectCmd u i o).data.getLast? ≠ some '\n' ∧
    (connectCmd u i o).data.getLast? ≠ some '\r' := by
  have hf : fmt02 i = "0" ++ toString i := by
    unfold fmt02
    rw [if_pos (by omega)]
  have hdig : ∃ c : Char, (toString o).data = [c] ∧ c ≠ '\n' ∧ c ≠ '\r' := by
    interval_cases o
    · exact ⟨'1', by decide, by decide, by decide⟩
    · exact ⟨'2', by decide, by decide, by decide⟩
    · exact ⟨'3', by decide, by decide, by decide⟩
    · exact ⟨'4', by decide, by decide, by decide⟩
  obtain ⟨c, hc, hn, hr⟩ := hdig
  have hm : (muteCmd u i o).data.getLast? = some c := data_append_getLast _ _ c hc
  have hco : (connectCmd u i o).data.getLast? = some c := data_append_getLast _ _ c hc
  refine ⟨?_, ?_, ?_, ?_, ?_, ?_⟩
  · unfold muteCmd
    rw [hf]
    simp [String.append_assoc]
  · unfold connectCmd
    rw [hf]
    simp [String.append_assoc]
  · rw [hm]
    simp [hn]
  · rw [hm]
    simp [hr]
  · rw [hco]
    simp [hn]
  · rw [hco]
    simp [hr]

/-- C6 — witness for the encoder-format theorem at `u = 3`, `i = 2`, `o = 4`. -/
theorem C6_witness :
    muteCmd 3 2 4 = "*" ++ toString 3 ++ "0" ++ toString 2 ++ "M" ++ toString 4 ∧
    connectCmd 3 2 4 = "*" ++ toString 3 ++ "0" ++ toString 2 ++ toString 4 ∧
    (muteCmd 3 2 4).data.getLast? ≠ some '\n' ∧
    (muteCmd 3 2 4).data.getLast? ≠ some '\r' ∧
    (connectCmd 3 2 4).data.getLast? ≠ some '\n' ∧
    (connectCmd 3 2 4).data.getLast? ≠ some '\r' :=
  C6_encoder_format 3 2 4 (by decide) (by decide) (by decide) (by decide)

/-- C7: the parser assigns status lines to rows purely by arrival position —
line k becomes the row of output k — and the first comma-separated field (the
`L<n>` label) plays no role: any two lines whose fields after the first
agree parse identically, and the mislabelled line `"S0L9,0,1,0,0"` supplied
first still populates the row of output 1 with input 2 true. -/
theorem C7_positional_rows :
    (∀ l1 l2 l3 l4 : String, ∀ rest w,
        (readState ⟨l1 :: l2 :: l3 :: l4 :: rest, w⟩).1 =
          ⟨parseLine l1, parseLine l2, parseLine l3, parseLine l4⟩) ∧
    (∀ l l' : String, (fields l).drop 1 = (fields l').drop 1 →
        parseLine l = parseLine l') ∧
    ((readState ⟨["S0L9,0,1,0,0", "S0L2,0,0,0,0", "S0L3,0,0,0,0",
        "S0L4,0,0,0,0"], []⟩).1).r1 =
      [none, some false, some true, some false, some false] := by
  refine ⟨?_, ?_, by decide⟩
  · intro l1 l2 l3 l4 rest w
    rfl
  · intro l l' h
    unfold parseLine
    rw [h]

/-- C7 — witness: two lines with different labels but equal flag fields
parse to the same row. -/
theorem C7_witness :
    parseLine "S0L9,0,1,0,0" = parseLine "S9L1,0,1,0,0" :=
  C7_positional_rows.2.1 "S0L9,0,1,0,0" "S9L1,0,1,0,0" (by decide)

/-- C8: multiple true flags in one line are preserved — `"S0L1,1,1,0,0"` as
the first line parses to the row of output 1, `[sentinel, true, true,
false, false]`, with no collapsing and no rejection — and each flag field decodes
independently: the field `"1"` gives true, any other field gives false. -/
theorem C8_flags_independent :
    (((readState ⟨["S0L1,1,1,0,0", "S0L2,0,0,0,0", "S0L3,0,0,0,0",
        "S0L4,0,0,0,0"], []⟩).1).r1 =
      [none, some true, some true, some false, some false]) ∧
    (∀ l lab f1 f2 f3 f4, fields l = [lab, f1, f2, f3, f4] →
        parseLine l = [none, some (f1 == ['1']), some (f2 == ['1']),
          some (f3 == ['1']), some (f4 == ['1'])]) ∧
    (∀ f : List Char, f ≠ ['1'] → (f == ['1']) = false) ∧
    ((['1'] == ['1']) = true) := by
  refine ⟨by decide, ?_, ?_, by decide⟩
  · intro l lab f1 f2 f3 f4 h
    unfold parseLine
    rw [h]
    rfl
  · intro f h
    exact beq_eq_false_iff_ne.mpr h

/-- C8 — witness: a 5-field line with flags 1,0,1,0 decodes field by field. -/
theorem C8_witness :
    parseLine "S0L1,1,0,1,0" = [none, some (['1'] == ['1']),
      some (['0'] == ['1']), some (['1'] == ['1']), some (['0'] == ['1'])] :=
  C8_flags_independent.2.1 "S0L1,1,0,1,0"
    ['S', '0', 'L', '1'] ['1'] ['0'] ['1'] ['0'] (by decide)

/-- C9: for any serial state, `readState` returns a dictionary whose key set
is exactly {1, 2, 3, 4}, and every row carries the sentinel `none` at
index 0 and a genuine boolean at every other present position. -/
theorem C9_readState_shape (s : Serial) :
    (∀ o : Nat, (((readState s).1).get? o).isSome = true ↔ 1 ≤ o ∧ o ≤ 4) ∧
    (∀ o row, ((readState s).1).get? o = some row →
      row[0]? = some none ∧ ∀ k v, row[k + 1]? = some v → ∃ b, v = some b) := by
  constructor
  · intro o
    rcases o with _ | _ | _ | _ | _ | n <;> simp [StateDict.get?]
  · intro o row h
    obtain ⟨l, rfl⟩ := readState_row_parse s o row h
    exact ⟨parseLine_sentinel l, fun k v hv => parseLine_pos l k v hv⟩

/-- C9 — witness: on a concrete four-line read, key 2 is present. -/
theorem C9_witness :
    (((readState ⟨["S0L1,1,1,0,0", "S0L2,0,0,0,0", "S0L3,0,0,0,0",
        "S0L4,0,0,0,0"], []⟩).1).get? 2).isSome = true :=
  ((C9_readState_shape ⟨["S0L1,1,1,0,0", "S0L2,0,0,0,0", "S0L3,0,0,0,0",
    "S0L4,0,0,0,0"], []⟩).1 2).mpr (by omega)

/-- Whatever the mute loop appends to the printed messages and to the command
log: the commands written during the loop are exactly mute commands for
row positions holding `some true` at an index other than the connected
input, visited from position `idx` onward. -/
theorem muteLoop_spec (u ii o : Nat) (lst : List (Option Bool)) :
    ∀ (idx : Nat) (r run : Run), muteLoop u ii o lst idx r = some run →
    (∃ p, run.prints = r.prints ++ p) ∧
    ∃ suffix, run.serial.outbox = r.serial.outbox ++ suffix ∧
      ∀ c ∈ suffix, ∃ i, c = muteCmd u i o ∧ i ≠ ii ∧ idx ≤ i ∧
        lst[i - idx]? = some (some true) := by
  induction lst with
  | nil =>
    intro idx r run h
    simp only [muteLoop] at h
    cases h
    exact ⟨⟨[], by simp⟩, [], by simp, by simp⟩
  | cons v rest ih =>
    intro idx r run h
    simp only [muteLoop] at h
    split at h
    · rename_i hc
      split at h
      · exact absurd h (by simp)
      · rename_i nrow hno
        split at h
        · exact absurd h (by simp)
        · rename_i nv hnv
          obtain ⟨⟨p, hp⟩, suffix, hs, hmem⟩ := ih (idx + 1) _ run h
          have hout : (readState (mute u r.serial idx o)).2.outbox =
              r.serial.outbox ++ [muteCmd u idx o] := by
            rw [readState_outbox]
            rfl
          constructor
          · refine ⟨(if nv ≠ some false then [muteErrMsg] else []) ++ p, ?_⟩
            rw [hp]
            split <;> simp
          · refine ⟨muteCmd u idx o :: suffix, ?_, ?_⟩
            · rw [hs]
              dsimp only
              rw [hout]
              simp
            · intro c hcmem
              rcases List.mem_cons.mp hcmem with hc1 | hc2
              · refine ⟨idx, hc1, hc.1, le_refl idx, ?_⟩
                simp [hc.2]
              · obtain ⟨i, hceq, hini, hle, hlook⟩ := hmem c hc2
                refine ⟨i, hceq, hini, by omega, ?_⟩
                have hi : i - idx = (i - (idx + 1)) + 1 := by omega
                rw [hi, List.getElem?_cons_succ]
                exact hlook
    · rename_i hc
      obtain ⟨⟨p, hp⟩, suffix, hs, hmem⟩ := ih (idx + 1) r run h
      refine ⟨⟨p, hp⟩, suffix, hs, ?_⟩
      intro c hcmem
      obtain ⟨i, hceq, hini, hle, hlook⟩ := hmem c hcmem
      refine ⟨i, hceq, hini, by omega, ?_⟩
      have hi : i - idx = (i - (idx + 1)) + 1 := by omega
      rw [hi, List.getElem?_cons_succ]
      exact hlook

/-- Completeness of the mute loop: every row position holding `some true`
whose index differs from the connected input gets its mute command written
by the time the loop finishes. -/
theorem muteLoop_covers (u ii o : Nat) (lst : List (Option Bool)) :
    ∀ (idx : Nat) (r run : Run), muteLoop u ii o lst idx r = some run →
    ∀ k, lst[k]? = some (some true) → idx + k ≠ ii →
    muteCmd u (idx + k) o ∈ run.serial.outbox := by
  induction lst with
  | nil =>
    intro idx r run h k hk hne
    simp at hk
  | cons v rest ih =>
    intro idx r run h k hk hne
    simp only [muteLoop] at h
    cases k with
    | zero =>
      rw [List.getElem?_cons_zero] at hk
      have hv : v = some true := by injection hk
      rw [Nat.add_zero] at hne ⊢
      split at h
      · split at h
        · exact absurd h (by simp)
        · split at h
          · exact absurd h (by simp)
          · obtain ⟨_, suffix, hs, _⟩ := muteLoop_spec u ii o rest (idx + 1) _ run h
            rw [hs]
            have hout : (readState (mute u r.serial idx o)).2.outbox =
                r.serial.outbox ++ [muteCmd u idx o] := by
              rw [readState_outbox]
              rfl
            dsimp only
            rw [hout]
            simp
      · rename_i hcond
        exact absurd ⟨hne, hv⟩ hcond
    | succ k' =>
      rw [List.getElem?_cons_succ] at hk
      have hadd : idx + (k' + 1) = (idx + 1) + k' := by omega
      rw [hadd] at hne ⊢
      split at h
      · split at h
        · exact absurd h (by simp)
        · split at h
          · exact absurd h (by simp)
          · exact ih (idx + 1) _ run h k' hk hne
      · exact ih (idx + 1) r run h k' hk hne

/-- C10: in any completed `switchOutput` run the first written command is the
connect command, and every later written command is a mute for a pair
(i, o) where i is a positive row index, i differs from the connected
input, and the post-connect matrix reports input i true on output o; the
sentinel position 0 never triggers a mute and the freshly connected input
is never muted. -/
theorem C10_mute_targets (u : Nat) (inbox : List String) (ii o : Nat) (run : Run)
    (h : switchOutput u ⟨inbox, []⟩ ii o = some run) :
    ∃ row, ((readState (connect u ⟨inbox, []⟩ ii o)).1).get? o = some row ∧
      run.serial.outbox.head? = some (connectCmd u ii o) ∧
      ∀ c ∈ run.serial.outbox.tail, ∃ i, c = muteCmd u i o ∧ 1 ≤ i ∧ i ≠ ii ∧
        row[i]? = some (some true) := by
  unfold switchOutput at h
  dsimp only at h
  split at h
  · exact absurd h (by simp)
  · rename_i row hrow
    split at h
    · exact absurd h (by simp)
    · rename_i v hv
      obtain ⟨_, suffix, hs, hmem⟩ := muteLoop_spec u ii o row 0 _ run h
      have hout : (readState (connect u ⟨inbox, []⟩ ii o)).2.outbox
          = [connectCmd u ii o] := by
        rw [readState_outbox]
        rfl
      have heq : run.serial.outbox = connectCmd u ii o :: suffix := by
        rw [hs]
        dsimp only
        rw [hout]
        rfl
      have h0 : row[0]? = some none := by
        obtain ⟨l, hl⟩ := readState_row_parse _ o row hrow
        rw [hl]
        exact parseLine_sentinel l
      refine ⟨row, hrow, ?_, ?_⟩
      · rw [heq]
        rfl
      · intro c hcm
        rw [heq] at hcm
        simp only [List.tail_cons] at hcm
        obtain ⟨i, hceq, hini, _, hlook⟩ := hmem c hcm
        refine ⟨i, hceq, ?_, hini, by simpa using hlook⟩
        cases i with
        | zero =>
          rw [Nat.sub_zero, h0] at hlook
          simp at hlook
        | succ n => omega

/-- C1 (amended): when the status parsed after the connect does not show the
requested crosspoint true, `switchOutput` records the failure by printing
the connect-error line but does NOT terminate: it still walks the row and
writes a mute command for every other input reported true. -/
theorem C1_report_and_continue (u : Nat) (inbox : List String) (ii o : Nat)
    (run : Run) (row : List (Option Bool))
    (h : switchOutput u ⟨inbox, []⟩ ii o = some run)
    (hrow : ((readState (connect u ⟨inbox, []⟩ ii o)).1).get? o = some row)
    (hfail : row[ii]? ≠ some (some true)) :
    connectErrMsg ∈ run.prints ∧
    ∀ i, row[i]? = some (some true) → i ≠ ii →
      muteCmd u i o ∈ run.serial.outbox := by
  unfold switchOutput at h
  dsimp only at h
  split at h
  · exact absurd h (by simp)
  · rename_i row' hrow'
    rw [hrow'] at hrow
    have hr : row' = row := by injection hrow
    subst hr
    split at h
    · exact absurd h (by simp)
    · rename_i v hv
      have hvft : v ≠ some true := by
        intro hveq
        rw [hveq] at hv
        exact hfail hv
      rw [if_pos hvft] at h
      constructor
      · obtain ⟨⟨p, hp⟩, _⟩ := muteLoop_spec u ii o row' 0 _ run h
        rw [hp]
        simp
      · intro i hi hine
        have := muteLoop_covers u ii o row' 0 _ run h i (by simpa using hi)
          (by simpa using hine)
        simpa using this

/-- C1 — counterexample. The claim says that when the post-connect status does
not show the requested crosspoint true, `switchOutput` terminates without
issuing any mute command. In the scenario `failLines` the status after
`Connect(2,1)` shows input 2 false (primary failure) and input 1 true on
output 1 — and the run both prints the connect-error line and still writes
the mute command `"*001M1"` for input 1, so a mute IS issued. -/
theorem C1_counterexample :
    switchOutput 0 ⟨failLines, []⟩ 2 1 =
      some ⟨[connectErrMsg], ⟨[], ["*0021", "*001M1"]⟩⟩ ∧
    ((readState (connect 0 ⟨failLines, []⟩ 2 1)).1).get? 1 =
      some [none, some true, some false, some false, some false] ∧
    ([none, some true, some false, some false, some false] :
      List (Option Bool))[2]? = some (some false) ∧
    muteCmd 0 1 1 = "*001M1" := by
  refine ⟨by decide, by decide, by decide, by decide⟩

/-- C1 — witness for the amended theorem on the `failLines` scenario. -/
theorem C1_witness :
    connectErrMsg ∈ (Run.mk [connectErrMsg] ⟨[], ["*0021", "*001M1"]⟩).prints ∧
    ∀ i, ([none, some true, some false, some false, some false] :
        List (Option Bool))[i]? = some (some true) → i ≠ 2 →
      muteCmd 0 i 1 ∈
        (Run.mk [connectErrMsg] ⟨[], ["*0021", "*001M1"]⟩).serial.outbox :=
  C1_report_and_continue 0 failLines 2 1
    ⟨[connectErrMsg], ⟨[], ["*0021", "*001M1"]⟩⟩
    [none, some true, some false, some false, some false]
    (by decide) (by decide) (by decide)

/-- C10 — witness on the happy-path scenario: the run writes the connect
command first and then only legitimate mute commands. -/
theorem C10_witness :
    ∃ row, ((readState (connect 0 ⟨happyLines, []⟩ 2 1)).1).get? 1 = some row ∧
      (Run.mk [] ⟨[], ["*0021", "*001M1"]⟩).serial.outbox.head? =
        some (connectCmd 0 2 1) ∧
      ∀ c ∈ (Run.mk [] ⟨[], ["*0021", "*001M1"]⟩).serial.outbox.tail,
        ∃ i, c = muteCmd 0 i 1 ∧ 1 ≤ i ∧ i ≠ 2 ∧ row[i]? = some (some true) :=
  C10_mute_targets 0 happyLines 2 1 ⟨[], ⟨[], ["*0021", "*001M1"]⟩⟩ (by decide)

end SS44
